import Mathlib

/-
Verification of the D2Q9 Lattice Boltzmann solver in
src/Lets_Do_LBM/Python3/lets_do_LBM.py.

Shallow embedding conventions:
- A directional field (one numpy plane of shape (nx, ny)) is a function
  `Grid := ℕ → ℕ → ℚ`; floating point arithmetic is modelled by exact
  rational arithmetic.  Rational division totalizes `x / 0 = 0`; the only
  place the Python code can divide by zero is the velocity recovery at
  zero-density cells, which the source itself only tolerates at obstacle
  cells whose values are overwritten afterwards.
- The distribution function `f` (numpy shape (9, nx, ny)) is
  `DistF := ℕ → Grid`; direction indices ≥ 9 do not exist in the source
  array and are never touched nor observed by any theorem below.
- A numpy fancy-indexed assignment `f[d, rows, :] = f[d, src, :]` evaluates
  its right-hand side completely before writing (advanced indexing copies),
  and raises if an index is out of bounds or the shapes do not broadcast.
  It is embedded as an `Option Grid`: `none` models the raised exception.
-/

namespace LBM

/-- One directional field over the lattice, indexed (i, j) = (x-row, y-column). -/
abbrev Grid := ℕ → ℕ → ℚ

/-- The nine directional distribution fields `f[d]` of the D2Q9 model. -/
abbrev DistF := ℕ → Grid

/-! ### Streaming, faithful embedding of `please_Stream_Distribution`

The source builds an all-rows index vector `oInds = np.arange(0, ny, 1)` and,
for each direction, a permuted source-index vector `inds`:
`concatenate(([nx-1], arange(0, nx-1)))` (stream forward, pulls from i-1) or
`concatenate((arange(1, nx), [0]))` (stream backward, pulls from i+1).  -/

/-- `oInds = np.arange(0, ny, 1)` (line 236). -/
def oInds (ny : ℕ) : List ℕ := List.range ny

/-- `inds = concatenate(([n-1], arange(0, n-1)))` — pull from index i-1 (mod n). -/
def indsDec (n : ℕ) : List ℕ := (n - 1) :: List.range (n - 1)

/-- `inds = concatenate((arange(1, n), [0]))` — pull from index i+1 (mod n). -/
def indsInc (n : ℕ) : List ℕ := List.range' 1 (n - 1) ++ [0]

/-- Numpy assignment `g[oInds, :] = g[src, :]` on a plane of shape (nx, ny):
the target rows `oInds ny` index the x-axis (length nx) and the source block
has `src.length` rows, so the assignment is well formed exactly when all the
indices are in bounds and `src.length = ny`; otherwise numpy raises, which is
modelled by `none`. -/
def assignRows (nx ny : ℕ) (src : List ℕ) (g : Grid) : Option Grid :=
  if h : src.length = ny ∧ (∀ k ∈ oInds ny, k < nx) ∧ (∀ k ∈ src, k < nx) then
    some (fun i j => if hi : i < ny then g (src.get ⟨i, by omega⟩) j else g i j)
  else none

/-- Numpy assignment `g[:, oInds] = g[:, src]` on a plane whose y-axis has
length ny (the y-axis assignments of the source are always square). -/
def assignCols (ny : ℕ) (src : List ℕ) (g : Grid) : Option Grid :=
  if h : src.length = ny ∧ (∀ k ∈ oInds ny, k < ny) ∧ (∀ k ∈ src, k < ny) then
    some (fun i j => if hj : j < ny then g i (src.get ⟨j, by omega⟩) else g i j)
  else none

/-- `please_Stream_Distribution(f, nx, ny)` (lines 234-302): each of the 8
moving directions is shifted with periodic wraparound; diagonal directions are
shifted along x and then along y.  Direction 8 (stationary) is untouched. -/
def please_Stream_Distribution (f : DistF) (nx ny : ℕ) : Option DistF := do
  let g0 ← assignRows nx ny (indsDec nx) (f 0)
  let g1 ← assignCols ny (indsDec ny) (f 1)
  let g2 ← assignRows nx ny (indsInc nx) (f 2)
  let g3 ← assignCols ny (indsInc ny) (f 3)
  let g4x ← assignRows nx ny (indsDec nx) (f 4)
  let g4 ← assignCols ny (indsDec ny) g4x
  let g5x ← assignRows nx ny (indsInc nx) (f 5)
  let g5 ← assignCols ny (indsDec ny) g5x
  let g6x ← assignRows nx ny (indsInc nx) (f 6)
  let g6 ← assignCols ny (indsInc ny) g6x
  let g7x ← assignRows nx ny (indsDec nx) (f 7)
  let g7 ← assignCols ny (indsInc ny) g7x
  return fun d =>
    if d = 0 then g0 else if d = 1 then g1 else if d = 2 then g2 else if d = 3 then g3
    else if d = 4 then g4 else if d = 5 then g5 else if d = 6 then g6 else if d = 7 then g7
    else f d

/-! ### Streaming on the square grids the driver actually uses

On a square grid (nx = ny = n, the driver hardcodes nx = ny = 100) every
fancy assignment above is well formed and `(indsDec n).get i = src1 n i`,
`(indsInc n).get i = src2 n i`; `stream_eq_some` below proves
`please_Stream_Distribution f n n = some (streamT n f)`. -/

/-- Value of `(indsDec n).get i` for i < n: pull from i-1, wrapping 0 to n-1. -/
def src1 (n x : ℕ) : ℕ := if x = 0 then n - 1 else x - 1

/-- Value of `(indsInc n).get i` for i < n: pull from i+1, wrapping n-1 to 0. -/
def src2 (n x : ℕ) : ℕ := if x = n - 1 then 0 else x + 1

/-- Total form of the row assignment `g[oInds, :] = g[s(oInds), :]`. -/
def shiftRows (ny : ℕ) (s : ℕ → ℕ) (g : Grid) : Grid :=
  fun i j => if i < ny then g (s i) j else g i j

/-- Total form of the column assignment `g[:, oInds] = g[:, s(oInds)]`. -/
def shiftCols (ny : ℕ) (s : ℕ → ℕ) (g : Grid) : Grid :=
  fun i j => if j < ny then g i (s j) else g i j

/-- `please_Stream_Distribution` on a square n-by-n grid (total form). -/
def streamT (n : ℕ) (f : DistF) : DistF := fun d =>
  if d = 0 then shiftRows n (src1 n) (f 0)
  else if d = 1 then shiftCols n (src1 n) (f 1)
  else if d = 2 then shiftRows n (src2 n) (f 2)
  else if d = 3 then shiftCols n (src2 n) (f 3)
  else if d = 4 then shiftCols n (src1 n) (shiftRows n (src1 n) (f 4))
  else if d = 5 then shiftCols n (src1 n) (shiftRows n (src2 n) (f 5))
  else if d = 6 then shiftCols n (src2 n) (shiftRows n (src2 n) (f 6))
  else if d = 7 then shiftCols n (src2 n) (shiftRows n (src1 n) (f 7))
  else f d

/-! ### Equilibrium distribution -/

/-- `please_Give_Equilibrium_Distribution` (lines 311-331), writing
f_EQ[8], then f_EQ[0..3] (axis-aligned, weight w2), then f_EQ[4..7]
(diagonal, weight w3); any other plane of the buffer is left as passed. -/
def please_Give_Equilibrium_Distribution (w1 w2 w3 : ℚ)
    (DENSITY UX UY U_SQU U_5 U_6 U_7 U_8 : Grid) (f_EQ : DistF) : DistF := fun d i j =>
  if d = 8 then w1 * DENSITY i j * (1 - (3/2) * U_SQU i j)
  else if d = 0 then
    w2 * DENSITY i j * (1 + 3 * UX i j + (9/2) * (UX i j * UX i j) - (3/2) * U_SQU i j)
  else if d = 1 then
    w2 * DENSITY i j * (1 + 3 * UY i j + (9/2) * (UY i j * UY i j) - (3/2) * U_SQU i j)
  else if d = 2 then
    w2 * DENSITY i j * (1 - 3 * UX i j + (9/2) * (UX i j * UX i j) - (3/2) * U_SQU i j)
  else if d = 3 then
    w2 * DENSITY i j * (1 - 3 * UY i j + (9/2) * (UY i j * UY i j) - (3/2) * U_SQU i j)
  else if d = 4 then
    w3 * DENSITY i j * (1 + 3 * U_5 i j + (9/2) * (U_5 i j * U_5 i j) - (3/2) * U_SQU i j)
  else if d = 5 then
    w3 * DENSITY i j * (1 + 3 * U_6 i j + (9/2) * (U_6 i j * U_6 i j) - (3/2) * U_SQU i j)
  else if d = 6 then
    w3 * DENSITY i j * (1 + 3 * U_7 i j + (9/2) * (U_7 i j * U_7 i j) - (3/2) * U_SQU i j)
  else if d = 7 then
    w3 * DENSITY i j * (1 + 3 * U_8 i j + (9/2) * (U_8 i j * U_8 i j) - (3/2) * U_SQU i j)
  else f_EQ d i j

/-! ### Macroscopic recovery (lines 446-462) -/

/-- `DENSITY = sum(f)` — per-cell sum of the 9 directional planes (line 447). -/
def DENSITY_of (f1 : DistF) : Grid := fun i j => ∑ d ∈ Finset.range 9, f1 d i j

/-- `UX = ((f[0]+f[4]+f[7]) - (f[2]+f[5]+f[6])) / DENSITY` (line 450). -/
def UX_of (f1 : DistF) : Grid := fun i j =>
  ((f1 0 i j + f1 4 i j + f1 7 i j) - (f1 2 i j + f1 5 i j + f1 6 i j)) / DENSITY_of f1 i j

/-- `UY = ((f[1]+f[4]+f[5]) - (f[3]+f[6]+f[7])) / DENSITY` (line 452). -/
def UY_of (f1 : DistF) : Grid := fun i j =>
  ((f1 1 i j + f1 4 i j + f1 5 i j) - (f1 3 i j + f1 6 i j + f1 7 i j)) / DENSITY_of f1 i j

/-- `UX[0,:] = UX[0,:] + deltaU` — inlet forcing on row index 0 (line 456). -/
def inlet_UX (deltaU : ℚ) (U : Grid) : Grid :=
  fun i j => if i = 0 then U i j + deltaU else U i j

/-- `G[ON_i, ON_j] = 0` — zero a field at every obstacle cell (lines 460-462). -/
def mask0 (BOUND : ℕ → ℕ → Bool) (G : Grid) : Grid :=
  fun i j => if BOUND i j then 0 else G i j

/-- The equilibrium field computed by one iteration of the driver from the
streamed state `f1` (lines 446-476): macroscopic recovery with inlet forcing
and obstacle zeroing, the derived velocity quantities `U_SQU`, `U_5 = UX+UY`,
`U_6 = -UX+UY`, `U_7 = -U_5`, `U_8 = -U_6`, then the equilibrium call.
(The persistent f_EQ buffer only matters for planes ≥ 9, which do not exist
in the source array; zeros are passed here.) -/
def f_EQ_of (BOUND : ℕ → ℕ → Bool) (deltaU w1 w2 w3 : ℚ) (f1 : DistF) : DistF :=
  let DEN := mask0 BOUND (DENSITY_of f1)
  let UX := mask0 BOUND (inlet_UX deltaU (UX_of f1))
  let UY := mask0 BOUND (UY_of f1)
  let U_SQU : Grid := fun i j => UX i j * UX i j + UY i j * UY i j
  let U_5 : Grid := fun i j => UX i j + UY i j
  let U_6 : Grid := fun i j => -UX i j + UY i j
  let U_7 : Grid := fun i j => -(U_5 i j)
  let U_8 : Grid := fun i j => -(U_6 i j)
  please_Give_Equilibrium_Distribution w1 w2 w3 DEN UX UY U_SQU U_5 U_6 U_7 U_8
    (fun _ _ _ => 0)

/-- `f = f - (1/tau)*(f - f_EQ)` — BGK collision, line 480. -/
def collide (tau : ℚ) (f f_EQ : DistF) : DistF :=
  fun d i j => f d i j - (1/tau) * (f d i j - f_EQ d i j)

/-- Bounce-back restore (lines 491-498): at every obstacle cell the moving
planes are overwritten from the captured buffer `BB`, exactly in the order of
the source lines; direction 8 is not written. -/
def bounceRestore (BOUND : ℕ → ℕ → Bool) (BB f : DistF) : DistF := fun d i j =>
  if BOUND i j then
    if d = 2 then BB 0 i j
    else if d = 3 then BB 1 i j
    else if d = 0 then BB 2 i j
    else if d = 1 then BB 3 i j
    else if d = 6 then BB 4 i j
    else if d = 7 then BB 5 i j
    else if d = 4 then BB 6 i j
    else if d = 5 then BB 7 i j
    else f d i j
  else f d i j

/-- One iteration of the driver loop acting on `f` (lines 429-498), in the
source order: stream, capture the streamed (pre-collision) values as the
bounce-back buffer, macroscopic recovery feeding the equilibrium field,
collision over the whole grid, bounce-back restore at obstacle cells.
The driver's square grid (`nx = ny = 100`) lets the streaming step be the
total `streamT`; `stream_eq_some` below equates it with the faithful
`please_Stream_Distribution` on square grids. -/
def timestep (n : ℕ) (BOUND : ℕ → ℕ → Bool) (deltaU tau w1 w2 w3 : ℚ)
    (f : DistF) : DistF :=
  bounceRestore BOUND (streamT n f)
    (collide tau (streamT n f) (f_EQ_of BOUND deltaU w1 w2 w3 (streamT n f)))

/-! ### Spec-side vocabulary for the claims -/

/-- The all-zero field. -/
def zeroGrid : Grid := fun _ _ => 0

/-- Spec-side opposite-direction table: east↔west (0↔2), north↔south (1↔3),
northeast↔southwest (4↔6), northwest↔southeast (5↔7). -/
def opp (d : ℕ) : ℕ :=
  if d = 0 then 2 else if d = 1 then 3 else if d = 2 then 0 else if d = 3 then 1
  else if d = 4 then 6 else if d = 5 then 7 else if d = 6 then 4 else if d = 7 then 5
  else d

/-- Spec-side unit lattice displacement of direction d, x component
(c1..c8 compass layout of the source header). -/
def cX (d : ℕ) : ℤ :=
  if d = 0 then 1 else if d = 1 then 0 else if d = 2 then -1 else if d = 3 then 0
  else if d = 4 then 1 else if d = 5 then -1 else if d = 6 then -1 else if d = 7 then 1
  else 0

/-- Spec-side unit lattice displacement of direction d, y component. -/
def cY (d : ℕ) : ℤ :=
  if d = 0 then 0 else if d = 1 then 1 else if d = 2 then 0 else if d = 3 then -1
  else if d = 4 then 1 else if d = 5 then 1 else if d = 6 then -1 else if d = 7 then -1
  else 0

/-- Periodic wrap of an integer coordinate into [0, n). -/
def wrap (n : ℕ) (a : ℤ) : ℕ := (a % (n : ℤ)).toNat

/-- A unit impulse: population 1 for direction d at cell (i, j), 0 elsewhere. -/
def impulse (d i j : ℕ) : DistF :=
  fun e x y => if e = d ∧ x = i ∧ y = j then 1 else 0

/-- x component of the cell one lattice step forward in direction d (periodic):
`src2` is +1 mod n on [0, n), `src1` is -1 mod n. -/
def fwdX (n d x : ℕ) : ℕ :=
  if d = 0 then src2 n x else if d = 2 then src1 n x
  else if d = 4 then src2 n x else if d = 5 then src1 n x
  else if d = 6 then src1 n x else if d = 7 then src2 n x
  else x

/-- y component of the cell one lattice step forward in direction d (periodic). -/
def fwdY (n d y : ℕ) : ℕ :=
  if d = 1 then src2 n y else if d = 3 then src1 n y
  else if d = 4 then src2 n y else if d = 5 then src2 n y
  else if d = 6 then src1 n y else if d = 7 then src1 n y
  else y

/-- x component of the cell streaming reads from when writing (x, y) in
direction d: one step backward (periodic). -/
def srcX (n d x : ℕ) : ℕ :=
  if d = 0 then src1 n x else if d = 2 then src2 n x
  else if d = 4 then src1 n x else if d = 5 then src2 n x
  else if d = 6 then src2 n x else if d = 7 then src1 n x
  else x

/-- y component of the cell streaming reads from when writing (x, y) in
direction d. -/
def srcY (n d y : ℕ) : ℕ :=
  if d = 1 then src1 n y else if d = 3 then src2 n y
  else if d = 4 then src1 n y else if d = 5 then src1 n y
  else if d = 6 then src2 n y else if d = 7 then src2 n y
  else y

/-- Grid-total of `DENSITY` over the whole n-by-n lattice. -/
def totalDensity (n : ℕ) (f : DistF) : ℚ :=
  ∑ i ∈ Finset.range n, ∑ j ∈ Finset.range n, DENSITY_of f i j

/-! ### Geometry provider (lines 151-225)

The porous scenarios draw per-cell uniform random numbers; the random source
is passed explicitly as `rand`.  Float `floor`/`ceil` of the cylinder radii
are modelled by exact rational floor/ceil (the source computes them with
binary floating point; no claim depends on the mask contents of these
scenarios).  The cylinder scenarios additionally assume nx = ny for the numpy
broadcasts to line up, as in the driver's 100-by-100 grid.  An unrecognized
scenario name assigns none of `BOUNDs, deltaU, endTime`, so the final
`return BOUNDs, deltaU, endTime` raises (UnboundLocalError): modelled `none`. -/
def give_Me_Problem_Geometry (choice : String) (nx ny : ℕ) (percentPorosity : ℚ)
    (rand : ℕ → ℕ → ℚ) : Option ((ℕ → ℕ → ℕ) × ℚ × ℕ) :=
  if choice = "channel" then
    some (fun _ j => if j = 0 ∨ j = ny - 1 then 1 else 0, 1/100, 2500)
  else if choice = "porous1" then
    some (fun i j =>
      if j = 0 ∨ j = ny - 1 then 1
      else if i < (nx + 4) / 5 then 0
      else if (4 * nx + 4) / 5 ≤ i then 0
      else if rand i j < 1 - percentPorosity then 1 else 0,
      1/10000000, 5000)
  else if choice = "porous2" then
    some (fun i j =>
      if j = 0 ∨ j = ny - 1 then 1
      else if i < 9 * nx / 31 then 0
      else if 7 * nx / 31 ≤ i ∧ i < (9 * nx + 30) / 31 then 0
      else if 13 * nx / 31 ≤ i ∧ i < (15 * nx + 30) / 31 then 0
      else if 19 * nx / 31 ≤ i ∧ i < (21 * nx + 30) / 31 then 0
      else if 25 * nx / 31 ≤ i ∧ i < (27 * nx + 30) / 31 then 0
      else if 30 * nx / 31 ≤ i then 0
      else if rand i j < 1 - percentPorosity then 1 else 0,
      1/10000000, 5000)
  else if choice = "cylinder1" then
    some (fun i j =>
      if j = 0 ∨ j = ny - 1 then 1
      else
        let a0 : ℕ → ℚ := fun k => -((nx : ℚ) - 1) / 2 + k
        let r : ℚ := ((⌊(nx : ℚ) / 3.5⌋ : ℤ) : ℚ)
        let aR : ℚ := ((⌈(nx : ℚ) / 3.5⌉ : ℤ) : ℚ)
        if a0 j * a0 j + (a0 i + aR) * (a0 i + aR) < r then 1 else 0,
      1/100, 2500)
  else if choice = "cylinder2" then
    some (fun i j =>
      if j = 0 ∨ j = ny - 1 then 1
      else
        let a0 : ℕ → ℚ := fun k => -((nx : ℚ) - 1) / 2 + k
        let r : ℚ := ((⌊(nx : ℚ) / 2.5⌋ : ℤ) : ℚ)
        let aL : ℚ := ((⌊(nx : ℚ) / 5⌋ : ℤ) : ℚ)
        let aR : ℚ := ((⌈(nx : ℚ) / 2⌉ : ℤ) : ℚ)
        let aM : ℚ := 0.3 * aR
        let b1 : ℕ := if a0 j * a0 j + (a0 i + 3.75 * aR / 5) * (a0 i + 3.75 * aR / 5) < r
          then 1 else 0
        let b2 : ℕ := if (a0 j + aL / 1.75) * (a0 j + aL / 1.75)
            + (a0 i + 4 * aM / 5) * (a0 i + 4 * aM / 5) < r then 1 else 0
        let b3 : ℕ := if (a0 j - aL / 1.75) * (a0 j - aL / 1.75)
            + (a0 i + 4 * aM / 5) * (a0 i + 4 * aM / 5) < r then 1 else 0
        b1 + b2 + b3,
      1/100, 4000)
  else
    none

/-! ### Time-stepping driver (lines 404-517) -/

/-- Vorticity from finite differences of UX, UY (lines 509-511): the array is
allocated (nx-1)-by-(ny-1) zeros and only its [0:nx-2, 0:ny-2] block is ever
written, each save, with `dUy_x - dUx_y`. -/
def vorticityOf (nx ny : ℕ) (dx dy : ℚ) (UX UY : Grid) : Grid := fun i j =>
  if i < nx - 2 ∧ j < ny - 2 then
    (UY (i + 1) j - UY i j) / dx - (UX i (j + 1) - UX i j) / dy
  else 0

/-- Loop state of `lets_do_LBM`: the distribution field, the time step `ts`,
the save counter `ctsave`, and the visualization handoffs made so far, each
recorded as (ctsave value, vorticity field handed to `print_vtk_files`). -/
structure DriverState where
  f : DistF
  ts : ℕ
  ctsave : ℕ
  saves : List (ℕ × Grid)

/-- The vorticity field the driver would hand off right after an iteration
acting on `f`: it is computed from the macroscopic `UX`, `UY` of that
iteration (recovered from the streamed state, with inlet forcing and obstacle
zeroing, lines 450-461), on the square n-by-n grid. -/
def handoffVort (n : ℕ) (BOUND : ℕ → ℕ → Bool) (deltaU dx dy : ℚ) (f : DistF) : Grid :=
  vorticityOf n n dx dy
    (mask0 BOUND (inlet_UX deltaU (UX_of (streamT n f))))
    (mask0 BOUND (UY_of (streamT n f)))

/-- One iteration of the while loop (lines 426-515): the pipeline `timestep`,
then `ts` and `ctsave` increment, then the cadence test
`(ctsave % print_dump) == 0` decides the visualization handoff. -/
def driverStep (n : ℕ) (BOUND : ℕ → ℕ → Bool) (deltaU tau w1 w2 w3 dx dy : ℚ)
    (printDump : ℕ) (st : DriverState) : DriverState :=
  let f' := timestep n BOUND deltaU tau w1 w2 w3 st.f
  let ts' := st.ts + 1
  let ct' := st.ctsave + 1
  ⟨f', ts', ct',
    if ct' % printDump = 0 then
      st.saves ++ [(ct', handoffVort n BOUND deltaU dx dy st.f)]
    else st.saves⟩

/-- The driver's while loop `while (ts < endTime)` (line 426). -/
def lets_do_LBM_loop (n : ℕ) (BOUND : ℕ → ℕ → Bool) (deltaU tau w1 w2 w3 dx dy : ℚ)
    (endTime printDump : ℕ) (st : DriverState) : DriverState :=
  if st.ts < endTime then
    lets_do_LBM_loop n BOUND deltaU tau w1 w2 w3 dx dy endTime printDump
      (driverStep n BOUND deltaU tau w1 w2 w3 dx dy printDump st)
  else st
termination_by endTime - st.ts
decreasing_by simp [driverStep]; omega

/-- The handoff list produced by m iterations that start with field `f` and
save counter `a`: iteration k (0-based) has counter `a + k + 1` and hands off
exactly when that counter is a multiple of `printDump`. -/
def handoffs (n : ℕ) (BOUND : ℕ → ℕ → Bool) (deltaU tau w1 w2 w3 dx dy : ℚ)
    (printDump a m : ℕ) (f : DistF) : List (ℕ × Grid) :=
  ((List.range m).map (fun k =>
      (a + k + 1,
        handoffVort n BOUND deltaU dx dy
          ((timestep n BOUND deltaU tau w1 w2 w3)^[k] f)))).filter
    (fun p => p.1 % printDump = 0)

/-! ### Helper lemmas: the shift index maps -/

lemma src1_lt {n x : ℕ} (hn : 1 ≤ n) (hx : x < n) : src1 n x < n := by
  unfold src1; split <;> omega

lemma src2_lt {n x : ℕ} (hn : 1 ≤ n) (hx : x < n) : src2 n x < n := by
  unfold src2; split <;> omega

lemma src1_eq_iff {n x i : ℕ} (hx : x < n) (hi : i < n) :
    src1 n x = i ↔ x = src2 n i := by
  unfold src1 src2; split <;> split <;> omega

lemma src2_eq_iff {n x i : ℕ} (hx : x < n) (hi : i < n) :
    src2 n x = i ↔ x = src1 n i := by
  unfold src1 src2; split <;> split <;> omega

lemma streamT_high {n : ℕ} {f : DistF} {d x y : ℕ} (hd : 8 ≤ d) :
    streamT n f d x y = f d x y := by
  have h0 : d ≠ 0 := by omega
  have h1 : d ≠ 1 := by omega
  have h2 : d ≠ 2 := by omega
  have h3 : d ≠ 3 := by omega
  have h4 : d ≠ 4 := by omega
  have h5 : d ≠ 5 := by omega
  have h6 : d ≠ 6 := by omega
  have h7 : d ≠ 7 := by omega
  simp [streamT, h0, h1, h2, h3, h4, h5, h6, h7]

lemma srcX_high {n : ℕ} {d x : ℕ} (hd : 8 ≤ d) : srcX n d x = x := by
  have h0 : d ≠ 0 := by omega
  have h2 : d ≠ 2 := by omega
  have h4 : d ≠ 4 := by omega
  have h5 : d ≠ 5 := by omega
  have h6 : d ≠ 6 := by omega
  have h7 : d ≠ 7 := by omega
  simp [srcX, h0, h2, h4, h5, h6, h7]

lemma srcY_high {n : ℕ} {d y : ℕ} (hd : 8 ≤ d) : srcY n d y = y := by
  have h1 : d ≠ 1 := by omega
  have h3 : d ≠ 3 := by omega
  have h4 : d ≠ 4 := by omega
  have h5 : d ≠ 5 := by omega
  have h6 : d ≠ 6 := by omega
  have h7 : d ≠ 7 := by omega
  simp [srcY, h1, h3, h4, h5, h6, h7]

lemma fwdX_high {n : ℕ} {d x : ℕ} (hd : 8 ≤ d) : fwdX n d x = x := by
  have h0 : d ≠ 0 := by omega
  have h2 : d ≠ 2 := by omega
  have h4 : d ≠ 4 := by omega
  have h5 : d ≠ 5 := by omega
  have h6 : d ≠ 6 := by omega
  have h7 : d ≠ 7 := by omega
  simp [fwdX, h0, h2, h4, h5, h6, h7]

lemma fwdY_high {n : ℕ} {d y : ℕ} (hd : 8 ≤ d) : fwdY n d y = y := by
  have h1 : d ≠ 1 := by omega
  have h3 : d ≠ 3 := by omega
  have h4 : d ≠ 4 := by omega
  have h5 : d ≠ 5 := by omega
  have h6 : d ≠ 6 := by omega
  have h7 : d ≠ 7 := by omega
  simp [fwdY, h1, h3, h4, h5, h6, h7]

/-- Pointwise characterization of square-grid streaming: inside the grid,
direction d at (x, y) is read from the cell one step backward (directions
8 and beyond are the identity on both axes). -/
lemma streamT_eq_src (n : ℕ) (f : DistF) (d x y : ℕ) (hx : x < n) (hy : y < n) :
    streamT n f d x y = f d (srcX n d x) (srcY n d y) := by
  by_cases hd : 8 ≤ d
  · rw [streamT_high hd, srcX_high hd, srcY_high hd]
  have hd' : d < 8 := by omega
  interval_cases d <;>
    simp [streamT, srcX, srcY, shiftRows, shiftCols, hx, hy]

/-- The stationary plane is never moved by streaming. -/
lemma streamT_stationary (n : ℕ) (f : DistF) (x y : ℕ) :
    streamT n f 8 x y = f 8 x y :=
  streamT_high (by omega)

/-- Backward and forward x-step are inverse on in-range coordinates. -/
lemma srcX_eq_iff {n d x i : ℕ} (hx : x < n) (hi : i < n) :
    srcX n d x = i ↔ x = fwdX n d i := by
  unfold srcX fwdX
  split_ifs <;> first
    | rw [src1_eq_iff hx hi]
    | rw [src2_eq_iff hx hi]
    | exact Iff.rfl

/-- Backward and forward y-step are inverse on in-range coordinates. -/
lemma srcY_eq_iff {n d y j : ℕ} (hy : y < n) (hj : j < n) :
    srcY n d y = j ↔ y = fwdY n d j := by
  unfold srcY fwdY
  split_ifs <;> first
    | rw [src1_eq_iff hy hj]
    | rw [src2_eq_iff hy hj]
    | exact Iff.rfl

/-- Stepping forward in the opposite direction is stepping backward. -/
lemma fwdX_opp {n d x : ℕ} : fwdX n (opp d) x = srcX n d x := by
  by_cases hd : 8 ≤ d
  · rw [srcX_high hd]
    have h : opp d = d := by
      unfold opp; split_ifs <;> omega
    rw [h]
    exact fwdX_high hd
  have hd' : d < 8 := by omega
  interval_cases d <;> simp [opp, fwdX, srcX]

lemma fwdY_opp {n d y : ℕ} : fwdY n (opp d) y = srcY n d y := by
  by_cases hd : 8 ≤ d
  · rw [srcY_high hd]
    have h : opp d = d := by
      unfold opp; split_ifs <;> omega
    rw [h]
    exact fwdY_high hd
  have hd' : d < 8 := by omega
  interval_cases d <;> simp [opp, fwdY, srcY]

/-! ### Bridging the faithful streaming to its total square-grid form -/

lemma indsDec_length (n : ℕ) (hn : 1 ≤ n) : (indsDec n).length = n := by
  simp [indsDec]; omega

lemma indsInc_length (n : ℕ) (hn : 1 ≤ n) : (indsInc n).length = n := by
  simp [indsInc]; omega

lemma indsDec_get (n i : ℕ) (h : i < (indsDec n).length) :
    (indsDec n).get ⟨i, h⟩ = src1 n i := by
  rcases i with _ | k
  · rfl
  · simp only [indsDec, List.get_eq_getElem, List.getElem_cons_succ, List.getElem_range]
    simp [src1]

lemma indsInc_get (n i : ℕ) (hn : 1 ≤ n) (h : i < (indsInc n).length) :
    (indsInc n).get ⟨i, h⟩ = src2 n i := by
  have hlen : (List.range' 1 (n - 1)).length = n - 1 := by simp
  have hi : i < n := by
    have := indsInc_length n hn
    omega
  have h2 : i < (List.range' 1 (n - 1) ++ [0]).length := by
    simp
    omega
  have key : (indsInc n).get ⟨i, h⟩ = (List.range' 1 (n - 1) ++ [0])[i] := by
    simp [indsInc]
  rw [key]
  by_cases hcase : i < n - 1
  · rw [List.getElem_append_left (by omega)]
    rw [List.getElem_range']
    unfold src2
    rw [if_neg (by omega)]
    omega
  · rw [List.getElem_append_right (by omega)]
    simp only [hlen, List.getElem_singleton]
    unfold src2
    rw [if_pos (by omega)]

lemma assignRows_dec (n : ℕ) (hn : 1 ≤ n) (g : Grid) :
    assignRows n n (indsDec n) g = some (shiftRows n (src1 n) g) := by
  have hcond : (indsDec n).length = n ∧ (∀ k ∈ oInds n, k < n) ∧
      (∀ k ∈ indsDec n, k < n) := by
    refine ⟨indsDec_length n hn, ?_, ?_⟩
    · intro k hk
      exact List.mem_range.mp hk
    · intro k hk
      rcases List.mem_cons.mp hk with h | h
      · omega
      · have := List.mem_range.mp h
        omega
  unfold assignRows
  rw [dif_pos hcond]
  congr 1
  funext i j
  by_cases hi : i < n
  · rw [dif_pos hi]
    rw [indsDec_get]
    simp [shiftRows, hi]
  · rw [dif_neg hi]
    simp [shiftRows, hi]

lemma assignRows_inc (n : ℕ) (hn : 1 ≤ n) (g : Grid) :
    assignRows n n (indsInc n) g = some (shiftRows n (src2 n) g) := by
  have hcond : (indsInc n).length = n ∧ (∀ k ∈ oInds n, k < n) ∧
      (∀ k ∈ indsInc n, k < n) := by
    refine ⟨indsInc_length n hn, ?_, ?_⟩
    · intro k hk
      exact List.mem_range.mp hk
    · intro k hk
      rcases List.mem_append.mp hk with h | h
      · have := List.mem_range'.mp h
        omega
      · simp only [List.mem_singleton] at h
        omega
  unfold assignRows
  rw [dif_pos hcond]
  congr 1
  funext i j
  by_cases hi : i < n
  · rw [dif_pos hi]
    rw [indsInc_get n i hn]
    simp [shiftRows, hi]
  · rw [dif_neg hi]
    simp [shiftRows, hi]

lemma assignCols_dec (n : ℕ) (hn : 1 ≤ n) (g : Grid) :
    assignCols n (indsDec n) g = some (shiftCols n (src1 n) g) := by
  have hcond : (indsDec n).length = n ∧ (∀ k ∈ oInds n, k < n) ∧
      (∀ k ∈ indsDec n, k < n) := by
    refine ⟨indsDec_length n hn, ?_, ?_⟩
    · intro k hk
      exact List.mem_range.mp hk
    · intro k hk
      rcases List.mem_cons.mp hk with h | h
      · omega
      · have := List.mem_range.mp h
        omega
  unfold assignCols
  rw [dif_pos hcond]
  congr 1
  funext i j
  by_cases hj : j < n
  · rw [dif_pos hj]
    rw [indsDec_get]
    simp [shiftCols, hj]
  · rw [dif_neg hj]
    simp [shiftCols, hj]

lemma assignCols_inc (n : ℕ) (hn : 1 ≤ n) (g : Grid) :
    assignCols n (indsInc n) g = some (shiftCols n (src2 n) g) := by
  have hcond : (indsInc n).length = n ∧ (∀ k ∈ oInds n, k < n) ∧
      (∀ k ∈ indsInc n, k < n) := by
    refine ⟨indsInc_length n hn, ?_, ?_⟩
    · intro k hk
      exact List.mem_range.mp hk
    · intro k hk
      rcases List.mem_append.mp hk with h | h
      · have := List.mem_range'.mp h
        omega
      · simp only [List.mem_singleton] at h
        omega
  unfold assignCols
  rw [dif_pos hcond]
  congr 1
  funext i j
  by_cases hj : j < n
  · rw [dif_pos hj]
    rw [indsInc_get n j hn]
    simp [shiftCols, hj]
  · rw [dif_neg hj]
    simp [shiftCols, hj]

/-- On a square grid the faithful streaming succeeds and equals `streamT`. -/
lemma stream_eq_some (n : ℕ) (hn : 1 ≤ n) (f : DistF) :
    please_Stream_Distribution f n n = some (streamT n f) := by
  simp only [please_Stream_Distribution, assignRows_dec n hn, assignRows_inc n hn,
    assignCols_dec n hn, assignCols_inc n hn]
  rfl

/-! ### Periodic-wrap arithmetic -/

lemma wrap_id {n x : ℕ} (hx : x < n) : wrap n ((x : ℤ)) = x := by
  unfold wrap
  rw [Int.emod_eq_of_lt (by omega) (by omega)]
  omega

lemma wrap_sub_one {n x : ℕ} (hn : 1 ≤ n) (hx : x < n) :
    wrap n ((x : ℤ) - 1) = src1 n x := by
  unfold wrap src1
  rcases Nat.eq_zero_or_pos x with h0 | h0
  · subst h0
    have h1 : ((0 : ℤ) - 1) % (n : ℤ) = (n : ℤ) - 1 := by
      have h2 := @Int.add_mul_emod_self_left ((0 : ℤ) - 1) ((n : ℤ)) 1
      have h3 : ((0 : ℤ) - 1) + (n : ℤ) * 1 = (n : ℤ) - 1 := by ring
      rw [h3] at h2
      rw [← h2]
      exact Int.emod_eq_of_lt (by omega) (by omega)
    rw [Nat.cast_zero, h1]
    rw [if_pos rfl]
    omega
  · rw [Int.emod_eq_of_lt (by omega) (by omega)]
    rw [if_neg (by omega)]
    omega

lemma wrap_add_one {n x : ℕ} (hx : x < n) :
    wrap n ((x : ℤ) + 1) = src2 n x := by
  unfold wrap src2
  by_cases h : x = n - 1
  · have h1 : ((x : ℤ)) + 1 = (n : ℤ) := by omega
    rw [h1, Int.emod_self, if_pos h]
    rfl
  · rw [Int.emod_eq_of_lt (by omega) (by omega)]
    rw [if_neg h]
    omega

/-- The backward source map is exactly "displace by the negated unit lattice
displacement, with periodic wraparound", x component. -/
lemma srcX_wrap {n d x : ℕ} (hn : 1 ≤ n) (hx : x < n) :
    wrap n ((x : ℤ) - cX d) = srcX n d x := by
  by_cases hd : 8 ≤ d
  · rw [srcX_high hd]
    have hc : cX d = 0 := by
      unfold cX
      split_ifs <;> omega
    rw [hc, sub_zero]
    exact wrap_id hx
  · have hd' : d < 8 := by omega
    interval_cases d <;>
      simp only [cX, if_pos rfl, if_neg, sub_neg_eq_add, sub_zero, srcX,
        reduceIte] <;>
      first
        | exact wrap_sub_one hn hx
        | exact wrap_add_one hx
        | exact wrap_id hx

/-- Same, y component. -/
lemma srcY_wrap {n d y : ℕ} (hn : 1 ≤ n) (hy : y < n) :
    wrap n ((y : ℤ) - cY d) = srcY n d y := by
  by_cases hd : 8 ≤ d
  · rw [srcY_high hd]
    have hc : cY d = 0 := by
      unfold cY
      split_ifs <;> omega
    rw [hc, sub_zero]
    exact wrap_id hy
  · have hd' : d < 8 := by omega
    interval_cases d <;>
      simp only [cY, if_pos rfl, if_neg, sub_neg_eq_add, sub_zero, srcY,
        reduceIte] <;>
      first
        | exact wrap_sub_one hn hy
        | exact wrap_add_one hy
        | exact wrap_id hy

/-! ### More index-map inverses (for the impulse round trip) -/

lemma fwdX_lt {n d i : ℕ} (hn : 1 ≤ n) (hi : i < n) : fwdX n d i < n := by
  unfold fwdX
  split_ifs <;> first
    | exact src1_lt hn hi
    | exact src2_lt hn hi
    | exact hi

lemma fwdY_lt {n d j : ℕ} (hn : 1 ≤ n) (hj : j < n) : fwdY n d j < n := by
  unfold fwdY
  split_ifs <;> first
    | exact src1_lt hn hj
    | exact src2_lt hn hj
    | exact hj

lemma src1_src2 {n x : ℕ} (hx : x < n) : src1 n (src2 n x) = x := by
  unfold src2
  by_cases h : x = n - 1
  · rw [if_pos h]
    unfold src1
    rw [if_pos rfl]
    omega
  · rw [if_neg h]
    unfold src1
    rw [if_neg (by omega)]
    omega

lemma src2_src1 {n x : ℕ} (hn : 1 ≤ n) (hx : x < n) : src2 n (src1 n x) = x := by
  unfold src1
  by_cases h : x = 0
  · rw [if_pos h]
    unfold src2
    rw [if_pos rfl]
    omega
  · rw [if_neg h]
    unfold src2
    rw [if_neg (by omega)]
    omega

lemma srcX_fwdX {n d i : ℕ} (hi : i < n) : srcX n d (fwdX n d i) = i := by
  have hn : 1 ≤ n := by omega
  by_cases hd : 8 ≤ d
  · rw [fwdX_high hd, srcX_high hd]
  · have hd' : d < 8 := by omega
    interval_cases d <;>
      simp only [srcX, fwdX, reduceIte] <;>
      first
        | exact src1_src2 hi
        | exact src2_src1 hn hi
        | rfl

lemma srcY_fwdY {n d j : ℕ} (hj : j < n) : srcY n d (fwdY n d j) = j := by
  have hn : 1 ≤ n := by omega
  by_cases hd : 8 ≤ d
  · rw [fwdY_high hd, srcY_high hd]
  · have hd' : d < 8 := by omega
    interval_cases d <;>
      simp only [srcY, fwdY, reduceIte] <;>
      first
        | exact src1_src2 hj
        | exact src2_src1 hn hj
        | rfl

/-! ### Claim theorems -/

/-- C2, counterexample to the claim as stated: on a non-square grid
(nx = 2, ny = 3) the Streamer produces no state at all — the first fancy
assignment uses the length-ny index vector `oInds` to select rows of the
length-nx x-axis, so numpy raises instead of returning a shifted state. -/
theorem C2_counterexample :
    please_Stream_Distribution (fun _ _ _ => (1 : ℚ)) 2 3 = none := by
  rfl

/-- C2 (amended): on every square grid (nx = ny = n ≥ 1) and every input
state, the Streamer succeeds, and for each of the 8 moving directions the
output value at every cell equals the input value at the cell displaced by
the negated unit lattice displacement with periodic wraparound; since the
result is expressed purely in terms of the input state `f`, it is exactly
what a snapshot-based shift would produce (no element is read after being
overwritten within the same direction's pass). -/
theorem C2_streaming_shift_square (n : ℕ) (f : DistF) (hn : 1 ≤ n) :
    please_Stream_Distribution f n n = some (streamT n f) ∧
    ∀ d x y, d < 8 → x < n → y < n →
      streamT n f d x y
        = f d (wrap n ((x : ℤ) - cX d)) (wrap n ((y : ℤ) - cY d)) := by
  refine ⟨stream_eq_some n hn f, ?_⟩
  intro d x y _ hx hy
  rw [streamT_eq_src n f d x y hx hy, srcX_wrap hn hx, srcY_wrap hn hy]

/-- Witness for C2 (amended) at n = 2 and a concrete input state. -/
theorem C2_streaming_shift_square_witness :
    1 ≤ 2 ∧
    (please_Stream_Distribution (fun d x y => (d : ℚ) + x + 2 * y) 2 2
        = some (streamT 2 (fun d x y => (d : ℚ) + x + 2 * y)) ∧
      ∀ d x y, d < 8 → x < 2 → y < 2 →
        streamT 2 (fun d x y => (d : ℚ) + x + 2 * y) d x y
          = (fun d x y => (d : ℚ) + x + 2 * y) d
              (wrap 2 ((x : ℤ) - cX d)) (wrap 2 ((y : ℤ) - cY d))) :=
  ⟨by norm_num,
    C2_streaming_shift_square 2 (fun d x y => (d : ℚ) + x + 2 * y) (by norm_num)⟩

/-- C7: streaming a unit impulse in direction d (at an in-range cell) puts it
at the forward neighbour cell, and streaming a unit impulse in the opposite
direction placed at that neighbour returns it exactly to the origin cell:
the periodic shift for d composed with the shift for opposite(d) is the
identity on cell positions. -/
theorem C7_impulse_round_trip (n d i j : ℕ) (hn : 1 ≤ n) (hd : d < 8)
    (hi : i < n) (hj : j < n) :
    (∀ e x y, x < n → y < n →
        streamT n (impulse d i j) e x y
          = impulse d (fwdX n d i) (fwdY n d j) e x y) ∧
    (∀ e x y, x < n → y < n →
        streamT n (impulse (opp d) (fwdX n d i) (fwdY n d j)) e x y
          = impulse (opp d) i j e x y) := by
  constructor
  · intro e x y hx hy
    rw [streamT_eq_src n _ e x y hx hy]
    unfold impulse
    by_cases he : e = d
    · simp only [he, srcX_eq_iff hx hi, srcY_eq_iff hy hj]
    · simp [he]
  · intro e x y hx hy
    rw [streamT_eq_src n _ e x y hx hy]
    unfold impulse
    by_cases he : e = opp d
    · simp only [he, srcX_eq_iff hx (fwdX_lt hn hi), srcY_eq_iff hy (fwdY_lt hn hj),
        fwdX_opp, fwdY_opp, srcX_fwdX hi, srcY_fwdY hj]
    · simp [he]

/-- Witness for C7 at n = 2, d = 0 (east), origin (0, 0). -/
theorem C7_impulse_round_trip_witness :
    1 ≤ 2 ∧ 0 < 8 ∧
    streamT 2 (impulse (opp 0) (fwdX 2 0 0) (fwdY 2 0 0)) (opp 0) 0 0
      = impulse (opp 0) 0 0 (opp 0) 0 0 :=
  ⟨by norm_num, by norm_num,
    (C7_impulse_round_trip 2 0 0 0 (by norm_num) (by norm_num) (by norm_num)
        (by norm_num)).2 (opp 0) 0 0 (by norm_num) (by norm_num)⟩

/-- C5: with zero velocity everywhere (hence zero velocity projections and
zero squared speed), the equilibrium calculator returns `w1*DENSITY` for the
stationary direction, `w2*DENSITY` for the 4 axis-aligned directions and
`w3*DENSITY` for the 4 diagonal directions, at every cell and for every
density field. -/
theorem C5_equilibrium_at_rest (w1 w2 w3 : ℚ) (DEN : Grid) (buf : DistF) (i j : ℕ) :
    please_Give_Equilibrium_Distribution w1 w2 w3 DEN zeroGrid zeroGrid zeroGrid
        zeroGrid zeroGrid zeroGrid zeroGrid buf 8 i j = w1 * DEN i j ∧
    (please_Give_Equilibrium_Distribution w1 w2 w3 DEN zeroGrid zeroGrid zeroGrid
        zeroGrid zeroGrid zeroGrid zeroGrid buf 0 i j = w2 * DEN i j ∧
      please_Give_Equilibrium_Distribution w1 w2 w3 DEN zeroGrid zeroGrid zeroGrid
        zeroGrid zeroGrid zeroGrid zeroGrid buf 1 i j = w2 * DEN i j ∧
      please_Give_Equilibrium_Distribution w1 w2 w3 DEN zeroGrid zeroGrid zeroGrid
        zeroGrid zeroGrid zeroGrid zeroGrid buf 2 i j = w2 * DEN i j ∧
      please_Give_Equilibrium_Distribution w1 w2 w3 DEN zeroGrid zeroGrid zeroGrid
        zeroGrid zeroGrid zeroGrid zeroGrid buf 3 i j = w2 * DEN i j) ∧
    (please_Give_Equilibrium_Distribution w1 w2 w3 DEN zeroGrid zeroGrid zeroGrid
        zeroGrid zeroGrid zeroGrid zeroGrid buf 4 i j = w3 * DEN i j ∧
      please_Give_Equilibrium_Distribution w1 w2 w3 DEN zeroGrid zeroGrid zeroGrid
        zeroGrid zeroGrid zeroGrid zeroGrid buf 5 i j = w3 * DEN i j ∧
      please_Give_Equilibrium_Distribution w1 w2 w3 DEN zeroGrid zeroGrid zeroGrid
        zeroGrid zeroGrid zeroGrid zeroGrid buf 6 i j = w3 * DEN i j ∧
      please_Give_Equilibrium_Distribution w1 w2 w3 DEN zeroGrid zeroGrid zeroGrid
        zeroGrid zeroGrid zeroGrid zeroGrid buf 7 i j = w3 * DEN i j) := by
  refine ⟨?_, ⟨?_, ?_, ?_, ?_⟩, ?_, ?_, ?_, ?_⟩ <;>
    simp [please_Give_Equilibrium_Distribution, zeroGrid]

/-- C6: the collision step is the uniform BGK relaxation
`f_new[d] = f[d] - (f[d] - f_EQ[d]) / tau`, elementwise in every direction
(including the stationary one) and at every cell, with the single rate 1/tau
independent of direction and cell. -/
theorem C6_collision_BGK (tau : ℚ) (f f_EQ : DistF) (d i j : ℕ) :
    collide tau f f_EQ d i j = f d i j - (f d i j - f_EQ d i j) / tau := by
  unfold collide
  ring

/-- C4: macroscopic recovery yields, at every obstacle cell, exactly
(0, 0, 0) for (DENSITY, UX, UY) — overriding the division result and the
inlet forcing — and, at every fluid cell, DENSITY = sum of the 9 planes,
UX = (east+northeast+southeast - west-northwest-southwest)/DENSITY plus
deltaU exactly on column index 0, and UY analogously for the y-axis. -/
theorem C4_macroscopic_recovery (BOUND : ℕ → ℕ → Bool) (deltaU : ℚ)
    (f1 : DistF) (i j : ℕ) :
    (mask0 BOUND (DENSITY_of f1) i j,
      mask0 BOUND (inlet_UX deltaU (UX_of f1)) i j,
      mask0 BOUND (UY_of f1) i j)
    = if BOUND i j then ((0 : ℚ), (0 : ℚ), (0 : ℚ))
      else
        (∑ d ∈ Finset.range 9, f1 d i j,
          ((f1 0 i j + f1 4 i j + f1 7 i j) - (f1 2 i j + f1 5 i j + f1 6 i j))
              / (∑ d ∈ Finset.range 9, f1 d i j)
            + (if i = 0 then deltaU else 0),
          ((f1 1 i j + f1 4 i j + f1 5 i j) - (f1 3 i j + f1 6 i j + f1 7 i j))
              / (∑ d ∈ Finset.range 9, f1 d i j)) := by
  by_cases hb : BOUND i j
  · simp [mask0, hb]
  · rcases eq_or_ne i 0 with hi | hi
    · subst hi
      simp [mask0, hb, DENSITY_of, UX_of, UY_of, inlet_UX]
    · simp [mask0, hb, hi, DENSITY_of, UX_of, UY_of, inlet_UX]

/-- C9: for a scenario name other than the five recognized choices, the
geometry provider produces no defined mask, deltaU or endTime — the if-chain
assigns nothing and the final return of the unassigned locals aborts
(UnboundLocalError), modelled as `none`; there is no explicit configuration
check reporting the bad name. -/
theorem C9_unknown_scenario (choice : String) (nx ny : ℕ) (pp : ℚ)
    (rand : ℕ → ℕ → ℚ) (h1 : choice ≠ "channel") (h2 : choice ≠ "porous1")
    (h3 : choice ≠ "porous2") (h4 : choice ≠ "cylinder1")
    (h5 : choice ≠ "cylinder2") :
    give_Me_Problem_Geometry choice nx ny pp rand = none := by
  unfold give_Me_Problem_Geometry
  rw [if_neg h1, if_neg h2, if_neg h3, if_neg h4, if_neg h5]

/-- Witness for C9 at the concrete unrecognized name "mystery". -/
theorem C9_unknown_scenario_witness :
    ("mystery" : String) ≠ "channel" ∧
    give_Me_Problem_Geometry "mystery" 100 100 (3/4) (fun _ _ => 0) = none :=
  ⟨by decide,
    C9_unknown_scenario "mystery" 100 100 (3/4) (fun _ _ => 0)
      (by decide) (by decide) (by decide) (by decide) (by decide)⟩

/-- C1: at every obstacle cell, one full Capture -> Collision -> Restore
cycle overwrites each of the 8 moving directions with the value the opposite
direction had immediately after streaming (the pre-collision capture), with
the pairing 0↔2, 1↔3, 4↔6, 5↔7; the stationary direction 8 is not restored —
it keeps its post-collision value. -/
theorem C1_bounce_back_cycle (n : ℕ) (BOUND : ℕ → ℕ → Bool)
    (deltaU tau w1 w2 w3 : ℚ) (f : DistF) (i j : ℕ) (hb : BOUND i j = true) :
    (∀ d, d < 8 →
        timestep n BOUND deltaU tau w1 w2 w3 f d i j = streamT n f (opp d) i j) ∧
    timestep n BOUND deltaU tau w1 w2 w3 f 8 i j
      = collide tau (streamT n f) (f_EQ_of BOUND deltaU w1 w2 w3 (streamT n f)) 8 i j := by
  constructor
  · intro d hd
    interval_cases d <;> simp [timestep, bounceRestore, opp, hb]
  · simp [timestep, bounceRestore, hb]

/-- Witness for C1 on a 1-by-1 all-obstacle grid, direction 0. -/
theorem C1_bounce_back_cycle_witness :
    ((fun _ _ : ℕ => true) 0 0 = true) ∧ 0 < 8 ∧
    timestep 1 (fun _ _ => true) 0 2 (4/9) (1/9) (1/36) (fun d _ _ => (d : ℚ)) 0 0 0
      = streamT 1 (fun d _ _ => (d : ℚ)) (opp 0) 0 0 :=
  ⟨rfl, by norm_num,
    (C1_bounce_back_cycle 1 (fun _ _ => true) 0 2 (4/9) (1/9) (1/36)
        (fun d _ _ => (d : ℚ)) 0 0 rfl).1 0 (by norm_num)⟩

/-! ### Obstacle cells: equilibrium vanishes, stationary direction decays -/

/-- At an obstacle cell the masked density is 0, so the stationary
equilibrium is 0, and (direction 8 being untouched by both streaming and the
bounce-back restore) one timestep multiplies f[8] there by (1 - 1/tau). -/
lemma timestep_obstacle_stationary (n : ℕ) (BOUND : ℕ → ℕ → Bool)
    (deltaU tau w1 w2 w3 : ℚ) (f : DistF) (i j : ℕ) (hb : BOUND i j = true) :
    timestep n BOUND deltaU tau w1 w2 w3 f 8 i j = (1 - 1/tau) * f 8 i j := by
  unfold timestep
  have hbr : bounceRestore BOUND (streamT n f)
      (collide tau (streamT n f) (f_EQ_of BOUND deltaU w1 w2 w3 (streamT n f))) 8 i j
      = collide tau (streamT n f) (f_EQ_of BOUND deltaU w1 w2 w3 (streamT n f)) 8 i j := by
    simp [bounceRestore, hb]
  rw [hbr]
  unfold collide
  rw [streamT_stationary]
  have hEQ : f_EQ_of BOUND deltaU w1 w2 w3 (streamT n f) 8 i j = 0 := by
    simp [f_EQ_of, please_Give_Equilibrium_Distribution, mask0, hb]
  rw [hEQ]
  ring

/-- C10: starting from the uniform initialization f = density/9 everywhere,
at every obstacle cell the stationary population after t completed timesteps
is (1 - 1/tau)^t * density/9: macroscopic recovery zeroes DENSITY there, so
every equilibrium population is 0 and collision scales by (1 - 1/tau), while
streaming never moves direction 8 and bounce-back restores only the 8 moving
directions. -/
theorem C10_obstacle_stationary_decay (n : ℕ) (BOUND : ℕ → ℕ → Bool)
    (deltaU tau w1 w2 w3 density : ℚ) (t i j : ℕ) (hb : BOUND i j = true) :
    ((timestep n BOUND deltaU tau w1 w2 w3)^[t] (fun _ _ _ => density / 9)) 8 i j
      = (1 - 1/tau) ^ t * (density / 9) := by
  induction t with
  | zero => simp
  | succ k ih =>
    rw [Function.iterate_succ_apply']
    rw [timestep_obstacle_stationary n BOUND deltaU tau w1 w2 w3 _ i j hb]
    rw [ih]
    ring

/-- Witness for C10 on a 1-by-1 all-obstacle grid, tau = 2, two steps. -/
theorem C10_obstacle_stationary_decay_witness :
    ((fun _ _ : ℕ => true) 0 0 = true) ∧
    ((timestep 1 (fun _ _ => true) 0 2 (4/9) (1/9) (1/36))^[2]
        (fun _ _ _ => (18 : ℚ) / 9)) 8 0 0
      = (1 - 1/2) ^ 2 * ((18 : ℚ) / 9) :=
  ⟨rfl, C10_obstacle_stationary_decay 1 (fun _ _ => true) 0 2 (4/9) (1/9) (1/36)
      18 2 0 0 rfl⟩

/-! ### Mass conservation -/

lemma sum_range_comp_src1 (n : ℕ) (g : ℕ → ℚ) :
    ∑ x ∈ Finset.range n, g (src1 n x) = ∑ x ∈ Finset.range n, g x := by
  rcases Nat.eq_zero_or_pos n with h0 | hpos
  · subst h0
    simp
  have hn : 1 ≤ n := hpos
  rw [← Fin.sum_univ_eq_sum_range (fun x => g (src1 n x)) n,
    ← Fin.sum_univ_eq_sum_range g n]
  exact Equiv.sum_comp
    ⟨fun x => ⟨src1 n x.1, src1_lt hn x.2⟩,
      fun x => ⟨src2 n x.1, src2_lt hn x.2⟩,
      fun x => Fin.ext (src2_src1 hn x.2),
      fun x => Fin.ext (src1_src2 x.2)⟩
    (fun x : Fin n => g x.1)

lemma sum_range_comp_src2 (n : ℕ) (g : ℕ → ℚ) :
    ∑ x ∈ Finset.range n, g (src2 n x) = ∑ x ∈ Finset.range n, g x := by
  rcases Nat.eq_zero_or_pos n with h0 | hpos
  · subst h0
    simp
  have hn : 1 ≤ n := hpos
  rw [← Fin.sum_univ_eq_sum_range (fun x => g (src2 n x)) n,
    ← Fin.sum_univ_eq_sum_range g n]
  exact Equiv.sum_comp
    ⟨fun x => ⟨src2 n x.1, src2_lt hn x.2⟩,
      fun x => ⟨src1 n x.1, src1_lt hn x.2⟩,
      fun x => Fin.ext (src1_src2 x.2),
      fun x => Fin.ext (src2_src1 hn x.2)⟩
    (fun x : Fin n => g x.1)

lemma sum_range_comp_srcX (n d : ℕ) (g : ℕ → ℚ) :
    ∑ x ∈ Finset.range n, g (srcX n d x) = ∑ x ∈ Finset.range n, g x := by
  by_cases hd : 8 ≤ d
  · simp only [srcX_high hd]
  · have hd' : d < 8 := by omega
    interval_cases d <;>
      simp only [srcX, reduceIte] <;>
      first
        | exact sum_range_comp_src1 n g
        | exact sum_range_comp_src2 n g
        | rfl

lemma sum_range_comp_srcY (n d : ℕ) (g : ℕ → ℚ) :
    ∑ y ∈ Finset.range n, g (srcY n d y) = ∑ y ∈ Finset.range n, g y := by
  by_cases hd : 8 ≤ d
  · simp only [srcY_high hd]
  · have hd' : d < 8 := by omega
    interval_cases d <;>
      simp only [srcY, reduceIte] <;>
      first
        | exact sum_range_comp_src1 n g
        | exact sum_range_comp_src2 n g
        | rfl

/-- Streaming permutes each directional plane, so the grid total of DENSITY
is unchanged. -/
lemma totalDensity_streamT (n : ℕ) (f : DistF) :
    totalDensity n (streamT n f) = totalDensity n f := by
  unfold totalDensity DENSITY_of
  have swap : ∀ (F : DistF),
      (∑ i ∈ Finset.range n, ∑ j ∈ Finset.range n, ∑ d ∈ Finset.range 9, F d i j)
        = ∑ d ∈ Finset.range 9, ∑ i ∈ Finset.range n, ∑ j ∈ Finset.range n, F d i j := by
    intro F
    have h1 : ∀ i, ∑ j ∈ Finset.range n, ∑ d ∈ Finset.range 9, F d i j
        = ∑ d ∈ Finset.range 9, ∑ j ∈ Finset.range n, F d i j :=
      fun i => Finset.sum_comm
    simp_rw [h1]
    exact Finset.sum_comm
  rw [swap (streamT n f), swap f]
  apply Finset.sum_congr rfl
  intro d _
  have hpt : ∀ x ∈ Finset.range n, ∑ y ∈ Finset.range n, streamT n f d x y
      = ∑ y ∈ Finset.range n, f d (srcX n d x) (srcY n d y) := by
    intro x hx
    apply Finset.sum_congr rfl
    intro y hy
    exact streamT_eq_src n f d x y (Finset.mem_range.mp hx) (Finset.mem_range.mp hy)
  rw [Finset.sum_congr rfl hpt]
  have hinner : ∀ x, ∑ y ∈ Finset.range n, f d (srcX n d x) (srcY n d y)
      = ∑ y ∈ Finset.range n, f d (srcX n d x) y :=
    fun x => sum_range_comp_srcY n d (f d (srcX n d x))
  simp_rw [hinner]
  exact sum_range_comp_srcX n d (fun x => ∑ y ∈ Finset.range n, f d x y)

/-- Per-cell zeroth moment of the equilibrium field: with the source's
weights 4/9, 1/9, 1/36, the nine equilibrium populations sum exactly to the
(masked) density — the velocity-dependent terms cancel. -/
lemma f_EQ_of_cell_sum (BOUND : ℕ → ℕ → Bool) (deltaU : ℚ) (f1 : DistF) (i j : ℕ) :
    ∑ d ∈ Finset.range 9, f_EQ_of BOUND deltaU (4/9) (1/9) (1/36) f1 d i j
      = mask0 BOUND (DENSITY_of f1) i j := by
  rw [Finset.sum_range_succ, Finset.sum_range_succ, Finset.sum_range_succ,
    Finset.sum_range_succ, Finset.sum_range_succ, Finset.sum_range_succ,
    Finset.sum_range_succ, Finset.sum_range_succ, Finset.sum_range_succ,
    Finset.sum_range_zero]
  norm_num [f_EQ_of, please_Give_Equilibrium_Distribution]
  ring

/-- With an empty obstacle mask, collision and restore preserve the per-cell
sum of the nine populations of the streamed state. -/
lemma timestep_cell_sum_empty (n : ℕ) (tau : ℚ) (f : DistF) (i j : ℕ) :
    ∑ d ∈ Finset.range 9, timestep n (fun _ _ => false) 0 tau (4/9) (1/9) (1/36) f d i j
      = ∑ d ∈ Finset.range 9, streamT n f d i j := by
  have hbr : ∀ d, timestep n (fun _ _ => false) 0 tau (4/9) (1/9) (1/36) f d i j
      = collide tau (streamT n f)
          (f_EQ_of (fun _ _ => false) 0 (4/9) (1/9) (1/36) (streamT n f)) d i j := by
    intro d
    simp [timestep, bounceRestore]
  simp_rw [hbr]
  unfold collide
  rw [Finset.sum_sub_distrib, ← Finset.mul_sum, Finset.sum_sub_distrib]
  rw [f_EQ_of_cell_sum]
  have hden : mask0 (fun _ _ => false) (DENSITY_of (streamT n f)) i j
      = ∑ d ∈ Finset.range 9, streamT n f d i j := by
    simp [mask0, DENSITY_of]
  rw [hden]
  ring

lemma totalDensity_timestep_empty (n : ℕ) (tau : ℚ) (f : DistF) :
    totalDensity n (timestep n (fun _ _ => false) 0 tau (4/9) (1/9) (1/36) f)
      = totalDensity n f := by
  have h1 : totalDensity n (timestep n (fun _ _ => false) 0 tau (4/9) (1/9) (1/36) f)
      = totalDensity n (streamT n f) := by
    unfold totalDensity DENSITY_of
    apply Finset.sum_congr rfl
    intro i _
    apply Finset.sum_congr rfl
    intro j _
    exact timestep_cell_sum_empty n tau f i j
  rw [h1, totalDensity_streamT]

/-- C3: with an empty obstacle mask and deltaU = 0 (and the source's weights
4/9, 1/9, 1/36), the grid total of DENSITY is exactly invariant across every
number of timesteps of the pipeline; moreover streaming alone preserves the
total (it permutes each plane) and the equilibrium field's per-cell sum over
the 9 directions equals DENSITY, which is why collision preserves the sum. -/
theorem C3_mass_conservation (n : ℕ) (tau : ℚ) (f : DistF) (t : ℕ) :
    totalDensity n ((timestep n (fun _ _ => false) 0 tau (4/9) (1/9) (1/36))^[t] f)
      = totalDensity n f ∧
    totalDensity n (streamT n f) = totalDensity n f ∧
    (∀ (g : DistF) (i j : ℕ),
      ∑ d ∈ Finset.range 9, f_EQ_of (fun _ _ => false) 0 (4/9) (1/9) (1/36) g d i j
        = DENSITY_of g i j) := by
  refine ⟨?_, totalDensity_streamT n f, ?_⟩
  · induction t with
    | zero => rfl
    | succ k ih =>
      rw [Function.iterate_succ_apply', totalDensity_timestep_empty, ih]
  · intro g i j
    rw [f_EQ_of_cell_sum]
    simp [mask0]

/-! ### Driver loop unrolling -/

lemma handoffs_zero (n : ℕ) (BOUND : ℕ → ℕ → Bool) (deltaU tau w1 w2 w3 dx dy : ℚ)
    (p a : ℕ) (f : DistF) :
    handoffs n BOUND deltaU tau w1 w2 w3 dx dy p a 0 f = [] := by
  simp [handoffs]

lemma handoffs_succ (n : ℕ) (BOUND : ℕ → ℕ → Bool) (deltaU tau w1 w2 w3 dx dy : ℚ)
    (p a m : ℕ) (f : DistF) :
    handoffs n BOUND deltaU tau w1 w2 w3 dx dy p a (m + 1) f
      = (if (a + 1) % p = 0
            then [(a + 1, handoffVort n BOUND deltaU dx dy f)] else [])
        ++ handoffs n BOUND deltaU tau w1 w2 w3 dx dy p (a + 1) m
            (timestep n BOUND deltaU tau w1 w2 w3 f) := by
  unfold handoffs
  rw [List.range_succ_eq_map, List.map_cons, List.map_map]
  have hfun :
      ((fun k => (a + k + 1, handoffVort n BOUND deltaU dx dy
            ((timestep n BOUND deltaU tau w1 w2 w3)^[k] f))) ∘ Nat.succ)
        = (fun k => ((a + 1) + k + 1, handoffVort n BOUND deltaU dx dy
            ((timestep n BOUND deltaU tau w1 w2 w3)^[k]
              (timestep n BOUND deltaU tau w1 w2 w3 f)))) := by
    funext k
    simp only [Function.comp_apply]
    rw [Function.iterate_succ_apply]
    have h : a + (k + 1) + 1 = (a + 1) + k + 1 := by omega
    rw [h]
  rw [hfun, List.filter_cons]
  by_cases hc : (a + 0 + 1) % p = 0
  · rw [if_pos (by simpa using hc)]
    have hc' : (a + 1) % p = 0 := by simpa using hc
    rw [if_pos hc']
    simp
  · rw [if_neg (by simpa using hc)]
    have hc' : ¬ (a + 1) % p = 0 := by simpa using hc
    rw [if_neg hc']
    simp

/-- Unrolling the while loop: starting m = endTime - ts steps before the end,
the loop runs exactly m iterations of the pipeline, increments ctsave by m,
and appends exactly the scheduled handoffs. -/
lemma loop_spec (n : ℕ) (BOUND : ℕ → ℕ → Bool) (deltaU tau w1 w2 w3 dx dy : ℚ)
    (endTime p : ℕ) :
    ∀ (m : ℕ) (st : DriverState), st.ts + m = endTime →
      lets_do_LBM_loop n BOUND deltaU tau w1 w2 w3 dx dy endTime p st
        = ⟨(timestep n BOUND deltaU tau w1 w2 w3)^[m] st.f, endTime, st.ctsave + m,
            st.saves ++ handoffs n BOUND deltaU tau w1 w2 w3 dx dy p st.ctsave m st.f⟩ := by
  intro m
  induction m with
  | zero =>
    intro st hst
    rw [lets_do_LBM_loop, if_neg (by omega)]
    rcases st with ⟨sf, sts, sct, ssv⟩
    simp only [handoffs_zero, List.append_nil, Function.iterate_zero_apply, Nat.add_zero]
    simp only at hst
    simp only [DriverState.mk.injEq]
    exact ⟨trivial, by omega, trivial, trivial⟩
  | succ k ih =>
    intro st hst
    rw [lets_do_LBM_loop, if_pos (by omega)]
    rw [ih (driverStep n BOUND deltaU tau w1 w2 w3 dx dy p st) (by simp [driverStep]; omega)]
    rw [handoffs_succ]
    rcases st with ⟨sf, sts, sct, ssv⟩
    simp only [driverStep, Function.iterate_succ_apply, DriverState.mk.injEq]
    refine ⟨trivial, trivial, by omega, ?_⟩
    by_cases hc : (sct + 1) % p = 0
    · rw [if_pos hc, if_pos hc]
      simp
    · rw [if_neg hc, if_neg hc]
      simp

/-- C8: started at ts = 0, the driver's while loop terminates in the state
reached after exactly endTime pipeline iterations — each iteration being the
strictly ordered Stream, Capture, Macroscopic Recovery, Equilibrium,
Collision, Restore composition `timestep`, followed by the counter
increments — and the visualization handoffs (vorticity computed by finite
differences of the recovered UX, UY) happen exactly at the iterations whose
count is a multiple of print_dump = floor(endTime/50), in order. -/
theorem C8_driver_loop (n : ℕ) (BOUND : ℕ → ℕ → Bool)
    (deltaU tau w1 w2 w3 dx dy : ℚ) (endTime : ℕ) (f0 : DistF)
    (h50 : 50 ≤ endTime) :
    lets_do_LBM_loop n BOUND deltaU tau w1 w2 w3 dx dy endTime (endTime / 50)
        ⟨f0, 0, 0, []⟩
      = ⟨(timestep n BOUND deltaU tau w1 w2 w3)^[endTime] f0, endTime, endTime,
          handoffs n BOUND deltaU tau w1 w2 w3 dx dy (endTime / 50) 0 endTime f0⟩ := by
  have h := loop_spec n BOUND deltaU tau w1 w2 w3 dx dy endTime (endTime / 50)
    endTime ⟨f0, 0, 0, []⟩ (by simp)
  simpa using h

/-- Witness for C8 at endTime = 50 (print_dump = 1) on a 1-by-1 grid. -/
theorem C8_driver_loop_witness :
    50 ≤ 50 ∧
    lets_do_LBM_loop 1 (fun _ _ => false) 0 2 (4/9) (1/9) (1/36) 1 1 50 (50 / 50)
        ⟨(fun _ _ _ => 0), 0, 0, []⟩
      = ⟨(timestep 1 (fun _ _ => false) 0 2 (4/9) (1/9) (1/36))^[50] (fun _ _ _ => 0),
          50, 50,
          handoffs 1 (fun _ _ => false) 0 2 (4/9) (1/9) (1/36) 1 1 (50 / 50) 0 50
            (fun _ _ _ => 0)⟩ :=
  ⟨by norm_num,
    C8_driver_loop 1 (fun _ _ => false) 0 2 (4/9) (1/9) (1/36) 1 1 50
      (fun _ _ _ => 0) (by norm_num)⟩

end LBM
